import Mathlib

/-!
Verification of the calendar resolution/disambiguation core of the
`slack-eAi` repository (apps/slackbot-server), as a shallow embedding in
Lean.  The embedded code is the final variant of
`src/openaiAgent.ts` (schema-validated generation + tool loop + two-stage
fuzzy delete disambiguation) together with the `app_mention` fuzzy-preview
rendering of `src/server.ts`.

External collaborators (the generation model, the Google Calendar client,
locale date formatting) are modelled as oracle parameters: a resolution
invocation is a pure function of the model's response sequence, the
calendar's contents and the fuzzy-ranking model's answer.  Every
collaborator invocation the core performs is recorded in an explicit call
trace, so that "never calls delete" style properties are provable.
-/

namespace SlackEAi

/-- The `action` enum of the zod schema: `z.enum(["create", "update", "delete"])`. -/
inductive ActionKind where
  | create
  | update
  | delete
deriving DecidableEq, Repr

/-- A candidate structured object produced by the generation model, before
validation.  Fields are `Option String`: `none` models an absent (undefined)
JSON field.  `parametersCalendarId` models `parameters?.calendarId` of a tool
request (the only parameter the code reads). -/
structure SchemaInput where
  action : Option String
  calendarId : Option String
  summary : Option String
  startDateTime : Option String
  endDateTime : Option String
  eventId : Option String
  toolCall : Option String
  parametersCalendarId : Option String
deriving DecidableEq, Repr

/-- A validated, normalized `CalendarActionRequest`: the result of a
successful zod parse.  `calendarId` is a plain `String` because
`z.string().default("primary")` guarantees it is present. -/
structure CalendarAction where
  action : ActionKind
  calendarId : String
  summary : Option String
  startDateTime : Option String
  endDateTime : Option String
  eventId : Option String
  toolCall : Option String
  parametersCalendarId : Option String
deriving DecidableEq, Repr

/-- JavaScript truthiness of a `string | undefined` value: `undefined` and
the empty string are falsy, every other string is truthy.  This is the
semantics of the source's `if (startDateTime && endDateTime && summary)`,
`if (!resolvedEventId && summary)` and `x || "primary"` tests. -/
def isTruthy : Option String → Bool
  | none => false
  | some s => s ≠ ""

/-- JavaScript `x || d` on a `string | undefined` value `x`. -/
def jsOr (x : Option String) (d : String) : String :=
  match x with
  | none => d
  | some s => if s = "" then d else s

/-- The source's timestamp pattern test
`/^\d{4}-\d{2}-\d{2}T\d{2}:\d{2}:\d{2}$/.test(s)`: an anchored match of a
fixed-length shape, compiled by hand.  `Char.isDigit` is exactly the ASCII
digit class of the regex's `\d`. -/
def isoDateTimeRegexTest (s : String) : Bool :=
  match s.toList with
  | [y1, y2, y3, y4, d1, mo1, mo2, d2, da1, da2, t, h1, h2, c1, mi1, mi2, c2, se1, se2] =>
    y1.isDigit && y2.isDigit && y3.isDigit && y4.isDigit &&
    d1 = '-' && mo1.isDigit && mo2.isDigit &&
    d2 = '-' && da1.isDigit && da2.isDigit &&
    t = 'T' && h1.isDigit && h2.isDigit &&
    c1 = ':' && mi1.isDigit && mi2.isDigit &&
    c2 = ':' && se1.isDigit && se2.isDigit
  | _ => false

/-- The spec's reading of the pattern `^\d{4}-\d{2}-\d{2}T\d{2}:\d{2}:\d{2}$`:
the string is exactly four digits, a hyphen, two digits, a hyphen, two
digits, a `T`, then three colon-separated pairs of digits.  Stated
independently of `isoDateTimeRegexTest` so the two can be compared. -/
def SpecIsoShape (s : String) : Prop :=
  ∃ y1 y2 y3 y4 mo1 mo2 da1 da2 h1 h2 mi1 mi2 se1 se2 : Char,
    s.toList = [y1, y2, y3, y4, '-', mo1, mo2, '-', da1, da2, 'T',
                h1, h2, ':', mi1, mi2, ':', se1, se2] ∧
    y1.isDigit = true ∧ y2.isDigit = true ∧ y3.isDigit = true ∧ y4.isDigit = true ∧
    mo1.isDigit = true ∧ mo2.isDigit = true ∧ da1.isDigit = true ∧ da2.isDigit = true ∧
    h1.isDigit = true ∧ h2.isDigit = true ∧ mi1.isDigit = true ∧ mi2.isDigit = true ∧
    se1.isDigit = true ∧ se2.isDigit = true

/-- Error message attached to the `startDateTime` refinement in the zod schema. -/
def startDateTimeMsg : String := "startDateTime must be in \x27YYYY-MM-DDTHH:MM:SS\x27 format"

/-- Error message attached to the `endDateTime` refinement in the zod schema. -/
def endDateTimeMsg : String := "endDateTime must be in \x27YYYY-MM-DDTHH:MM:SS\x27 format"

/-- Issues contributed by the `action` field: membership in the enum. -/
def actionIssues (o : SchemaInput) : List String :=
  match o.action with
  | some "create" => []
  | some "update" => []
  | some "delete" => []
  | _ => ["Invalid enum value for action"]

/-- Issues contributed by an optional refined timestamp field. -/
def timestampIssues (v : Option String) (msg : String) : List String :=
  match v with
  | none => []
  | some s => if isoDateTimeRegexTest s then [] else [msg]

/-- Parse of the `action` enum value. -/
def parseActionKind (v : Option String) : Option ActionKind :=
  match v with
  | some "create" => some ActionKind.create
  | some "update" => some ActionKind.update
  | some "delete" => some ActionKind.delete
  | _ => none

/-- The Schema Validator: the zod `schema.parse` of `openaiAgent.ts`.
`action` must be one of the three enum values; `startDateTime` and
`endDateTime`, when present, must pass `isoDateTimeRegexTest`; a missing
`calendarId` is defaulted to `"primary"` (`z.string().default("primary")`);
all other fields pass through unchanged.  zod collects one message per
violated constraint, so failure carries the full issue list. -/
def validateSchema (o : SchemaInput) : Except (List String) CalendarAction :=
  let issues := actionIssues o ++ timestampIssues o.startDateTime startDateTimeMsg ++
    timestampIssues o.endDateTime endDateTimeMsg
  match parseActionKind o.action with
  | some a =>
    if issues = [] then
      Except.ok
        { action := a
          calendarId := o.calendarId.getD "primary"
          summary := o.summary
          startDateTime := o.startDateTime
          endDateTime := o.endDateTime
          eventId := o.eventId
          toolCall := o.toolCall
          parametersCalendarId := o.parametersCalendarId }
    else Except.error issues
  | none => Except.error issues

/-- A calendar event as returned by `listUpcomingEvents` in `calendar.ts`
(after the delete branch's enrichment: `id`, `summary`, `description`
defaulted to `""`, `start`, optional `htmlLink`). -/
structure Event where
  id : String
  summary : String
  description : String
  start : String
  htmlLink : Option String
deriving DecidableEq, Repr

/-- One entry of `FuzzyDeletePreview.topMatches`: `{id, summary, start,
score, htmlLink?}`.  The JavaScript `number` score is modelled as a rational,
which is exact for the decimal thresholds `0.8` and `0.9` the code compares
against. -/
structure MatchCandidate where
  id : String
  summary : String
  start : String
  score : ℚ
  htmlLink : Option String
deriving DecidableEq, Repr

/-- The `fuzzy-delete-preview` object (its `type` tag is carried by the
constructor of `AgentResult` below). -/
structure FuzzyDeletePreview where
  summary : String
  topMatches : List MatchCandidate
deriving DecidableEq, Repr

/-- `\w` of the source's `normalize`: ASCII letters, digits and underscore. -/
def isWordChar (c : Char) : Bool :=
  c.isAlphanum || c = '_'

/-- `\s` of the source's `normalize`: whitespace. -/
def isSpaceChar (c : Char) : Bool :=
  c = ' ' || c = '\t' || c = '\n' || c = '\r'

/-- Splits a character list on whitespace, dropping empty fragments
(accumulator-based so the recursion is structural). -/
def splitWordsAux : List Char → List Char → List (List Char)
  | [], acc => if acc = [] then [] else [acc.reverse]
  | c :: cs, acc =>
    if isSpaceChar c then
      if acc = [] then splitWordsAux cs [] else acc.reverse :: splitWordsAux cs []
    else splitWordsAux cs (c :: acc)

/-- The whitespace-separated words of a character list. -/
def splitWords (cs : List Char) : List (List Char) :=
  splitWordsAux cs []

/-- The source's `normalize`: lower-case, strip every character that is
neither a word character nor whitespace (`/[^\w\s]/g`), collapse whitespace
runs to single spaces (`/\s+/g` → `" "`), and trim.  Collapsing-and-trimming
is realized by splitting into words and re-joining with single spaces. -/
def normalize (s : String) : String :=
  let filtered := (s.toLower.toList.filter fun c => isWordChar c || isSpaceChar c)
  String.intercalate " " ((splitWords filtered).map fun w => String.mk w)

/-- Number of indexed documents containing `term`. -/
def docsContaining (term : List Char) (docs : List (List (List Char))) : Nat :=
  docs.countP fun d => d.contains term

/-- Modelled from the spec: the `natural` library's `TfIdf` measure is a
third-party dependency whose code is not part of this repository; the spec
describes it only as "term-frequency–inverse-document-frequency weighting
over normalized text".  It is modelled here as
`Σ_term tf(term, doc) · N / (1 + df(term))` over the query's terms, i.e. the
inverse-document-frequency factor is the document ratio in place of its
logarithm (a strictly monotone reparameterization; the determinism property
verified below is independent of the weighting function). -/
def tfidfMeasure (query : List Char) (docs : List (List (List Char))) (i : Nat) : ℚ :=
  let doc := docs.getD i []
  let n : ℚ := docs.length
  ((splitWords query).map fun term =>
    (doc.count term : ℚ) * (n / (1 + (docsContaining term docs : ℚ)))).sum

/-- An event together with its normalized combined text and its lexical
similarity score, as produced by `sortByTfIdfSimilarity`. -/
structure ScoredEvent where
  event : Event
  combined : String
  similarity : ℚ
deriving DecidableEq, Repr

/-- The Similarity Prefilter `sortByTfIdfSimilarity`: normalize the user
input, index each event's normalized `summary + " " + description` into a
fresh TfIdf corpus, score every event against the input, sort by descending
similarity (JavaScript's stable sort with comparator
`(a, b) => b.similarity - a.similarity`) and keep the top 10. -/
def sortByTfIdfSimilarity (userInput : String) (events : List Event) : List ScoredEvent :=
  let normalizedInput := normalize userInput
  let eventDocs : List ScoredEvent := events.map fun e =>
    { event := e, combined := normalize (e.summary ++ " " ++ e.description), similarity := (0 : ℚ) }
  let corpus := eventDocs.map fun e => splitWords e.combined.toList
  let scores := (List.range eventDocs.length).map fun i =>
    let e := eventDocs.getD i { event := ⟨"", "", "", "", none⟩, combined := "", similarity := 0 }
    { e with similarity := tfidfMeasure normalizedInput.toList corpus i }
  (scores.mergeSort fun a b => b.similarity ≤ a.similarity).take 10

/-- `getFuzzyDeleteMatches`: run the Similarity Prefilter, then hand the
reduced candidate list (with its score hints) and the user text to the
semantic-ranking model call, modelled as the oracle `fuzzyLlm`. -/
def getFuzzyDeleteMatches (fuzzyLlm : String → List ScoredEvent → FuzzyDeletePreview)
    (userText : String) (events : List Event) : FuzzyDeletePreview :=
  fuzzyLlm userText (sortByTfIdfSimilarity userText events)

/-- A collaborator invocation the core can perform, recorded in the call
trace.  `createEvent`, `updateEvent` and `deleteEvent` are the mutations;
`listEvents` is the read-only upcoming-events fetch. -/
inductive CollabCall where
  | createEvent (calendarId summary startDateTime endDateTime : String)
  | updateEvent (calendarId eventId summary : String)
  | deleteEvent (calendarId eventId : String)
  | listEvents (calendarId : String) (maxResults : Nat)
deriving DecidableEq, Repr

/-- Whether a collaborator call mutates the calendar. -/
def CollabCall.isMutation : CollabCall → Bool
  | CollabCall.createEvent _ _ _ _ => true
  | CollabCall.updateEvent _ _ _ => true
  | CollabCall.deleteEvent _ _ => true
  | CollabCall.listEvents _ _ => false

/-- Whether a collaborator call is the delete operation. -/
def CollabCall.isDelete : CollabCall → Bool
  | CollabCall.deleteEvent _ _ => true
  | _ => false

/-- The calendar collaborator's responses (pure request-scoped oracle
functions for the data the core reads back: the created/updated event and
the upcoming-event listing). -/
structure Collaborator where
  createEvent : String → String → String → String → Event
  updateEvent : String → String → String → Event
  listUpcoming : String → Nat → List Event

/-- What one resolution invocation hands back to the caller: either a plain
string or the `fuzzy-delete-preview` object. -/
inductive AgentResult where
  | message (text : String)
  | fuzzyPreview (p : FuzzyDeletePreview)
deriving DecidableEq, Repr

/-- JavaScript string interpolation of a `string | undefined` value. -/
def jsShow (x : Option String) : String :=
  x.getD "undefined"

/-- The no-confident-match message of the delete branch. -/
def noMatchMsg (summary : String) : String :=
  "⚠️ I couldn\x27t confidently find an event to delete matching *\"" ++ summary ++ "\"*."

/-- The `✅ Event created ...` confirmation message. -/
def createdMsg (summary startDisplay endDisplay link : String) : String :=
  "✅ Event *\"" ++ summary ++ "\"* created for *" ++ startDisplay ++ " - " ++ endDisplay ++
    "*.\n🔗 <" ++ link ++ "|View it on Google Calendar>"

/-- The `✅ Event updated ...` confirmation message. -/
def updatedMsg (summary link : String) : String :=
  "✅ Event updated to *\"" ++ summary ++ "\"*.\n🔗 <" ++ link ++ "|View it on Google Calendar>"

/-- The `✅ Deleted event ...` confirmation message. -/
def deletedMsg (eventId : String) : String :=
  "✅ Deleted event with ID *" ++ eventId ++ "*."

/-- The dispatch of a resolved action (lines 161–217 of `openaiAgent.ts`),
returning the caller-facing result together with the trace of collaborator
calls performed.  Oracle parameters: `collab` (the calendar collaborator's
responses), `fuzzyLlm` (the semantic-ranking model call inside
`getFuzzyDeleteMatches`) and `fmt` (`formatDateTime`, a locale rendering the
embedding leaves abstract). -/
def dispatchAction (o : CalendarAction) (collab : Collaborator)
    (fuzzyLlm : String → List ScoredEvent → FuzzyDeletePreview)
    (fmt : String → String) : AgentResult × List CollabCall :=
  if o.action = ActionKind.create ∧ isTruthy o.startDateTime ∧ isTruthy o.endDateTime ∧
      isTruthy o.summary then
    let summary := o.summary.getD ""
    let sdt := o.startDateTime.getD ""
    let edt := o.endDateTime.getD ""
    let ev := collab.createEvent o.calendarId summary sdt edt
    (AgentResult.message (createdMsg summary (fmt sdt) (fmt edt) (jsShow ev.htmlLink)),
      [CollabCall.createEvent o.calendarId summary sdt edt])
  else if o.action = ActionKind.update ∧ isTruthy o.eventId ∧ isTruthy o.summary then
    let eventId := o.eventId.getD ""
    let summary := o.summary.getD ""
    let ev := collab.updateEvent o.calendarId eventId summary
    (AgentResult.message (updatedMsg summary (jsShow ev.htmlLink)),
      [CollabCall.updateEvent o.calendarId eventId summary])
  else if o.action = ActionKind.delete then
    let resolvedEventId := o.eventId
    if isTruthy resolvedEventId = false ∧ isTruthy o.summary then
      let summary := o.summary.getD ""
      let events := collab.listUpcoming o.calendarId 50
      let fuzzyResult := getFuzzyDeleteMatches fuzzyLlm summary events
      let trace := [CollabCall.listEvents o.calendarId 50]
      match fuzzyResult.topMatches.head? with
      | none => (AgentResult.message (noMatchMsg summary), trace)
      | some bestMatch =>
        if bestMatch.score < 8/10 then
          (AgentResult.message (noMatchMsg summary), trace)
        else
          (AgentResult.fuzzyPreview { summary := summary, topMatches := fuzzyResult.topMatches },
            trace)
    else if isTruthy resolvedEventId = false then
      (AgentResult.message "⚠️ No event ID found to delete.", [])
    else
      let eventId := resolvedEventId.getD ""
      (AgentResult.message (deletedMsg eventId), [CollabCall.deleteEvent o.calendarId eventId])
  else
    (AgentResult.message "⚠️ Could not understand your request.", [])

/-- Outcome of the tool-calling loop over a generation sequence. -/
inductive LoopOutcome where
  | resolved (toolResult : CalendarAction) (generations : Nat) (calls : List CollabCall)
  | stillLooping
deriving DecidableEq, Repr

/-- The tool-calling loop (`while (!toolExecutionComplete)` of
`handleLlmCalendarAction`).  The generation model is modelled as the finite
sequence `responses` of validated objects it returns on successive
`generateObject` calls.  While a response carries
`toolCall === "listUpcomingEvents"`, the code fetches the upcoming events
for `parameters?.calendarId || "primary"` (recorded in the call trace),
appends the serialized listing to the prompt context, and generates again.
`resolved r n calls` means the loop exits after `n` generation calls with
final object `r`; `stillLooping` means the supplied sequence was exhausted
with the loop still running — the source code has no iteration bound, so a
model that keeps requesting the tool keeps it looping. -/
def runToolLoop (collab : Collaborator) : List CalendarAction → LoopOutcome
  | [] => LoopOutcome.stillLooping
  | o :: rest =>
    if o.toolCall = some "listUpcomingEvents" then
      let cid := jsOr o.parametersCalendarId "primary"
      match runToolLoop collab rest with
      | LoopOutcome.resolved r n calls =>
        LoopOutcome.resolved r (n + 1) (CollabCall.listEvents cid 50 :: calls)
      | LoopOutcome.stillLooping => LoopOutcome.stillLooping
    else
      LoopOutcome.resolved o 1 []

/-- One full resolution invocation (`handleLlmCalendarAction` of the final
variant): run the tool loop over the generation sequence, then dispatch the
resolved action.  `none` models the invocation never returning within the
supplied generation sequence (the unbounded loop still running). -/
def handleLlmCalendarAction (responses : List CalendarAction) (collab : Collaborator)
    (fuzzyLlm : String → List ScoredEvent → FuzzyDeletePreview)
    (fmt : String → String) : Option (AgentResult × List CollabCall) :=
  match runToolLoop collab responses with
  | LoopOutcome.stillLooping => none
  | LoopOutcome.resolved o _ calls =>
    let (r, dispatchCalls) := dispatchAction o collab fuzzyLlm fmt
    some (r, calls ++ dispatchCalls)

/-- How the caller (`server.ts`'s `app_mention` handler) renders a reply. -/
inductive SlackRendering where
  | confirmSingle (top : MatchCandidate)
  | candidateList (shown : List MatchCandidate)
  | noMatchesText (summary : String)
  | plainText (text : String)
deriving DecidableEq, Repr

/-- The caller's rendering of the core's reply (lines 66–158 of
`server.ts`): a `fuzzy-delete-preview` with an empty match list becomes a
could-not-find message; otherwise, a top score `≥ 0.9` yields the
single-candidate confirm-before-delete prompt, and anything lower yields the
pick-one list of the first three matches; plain strings are said verbatim. -/
def renderReply : AgentResult → SlackRendering
  | AgentResult.message s => SlackRendering.plainText s
  | AgentResult.fuzzyPreview p =>
    match p.topMatches.head? with
    | none => SlackRendering.noMatchesText p.summary
    | some top =>
      if top.score ≥ 9/10 then SlackRendering.confirmSingle top
      else SlackRendering.candidateList (p.topMatches.take 3)

/-! Concrete fixtures used by witnesses and counterexamples. -/

/-- A sample upcoming event. -/
def exEventTeamSync : Event :=
  ⟨"e1", "Team sync", "", "2025-05-20T15:00:00", some "https://calendar/e1"⟩

/-- A second sample upcoming event. -/
def exEventBudget : Event :=
  ⟨"e2", "Budget meeting", "", "2025-05-21T10:00:00", none⟩

/-- A concrete calendar collaborator with two upcoming events. -/
def exCollab : Collaborator where
  createEvent := fun _ s sd _ => ⟨"new1", s, "", sd, some "https://calendar/new1"⟩
  updateEvent := fun _ e s => ⟨e, s, "", "", some "https://calendar/upd"⟩
  listUpcoming := fun _ _ => [exEventTeamSync, exEventBudget]

/-- A concrete date-display formatter. -/
def exFmt : String → String := fun s => s

/-- A match candidate with confidence 0.95. -/
def exMatchHigh : MatchCandidate :=
  ⟨"e1", "Team sync", "2025-05-20T15:00:00", 95/100, some "https://calendar/e1"⟩

/-- A match candidate with confidence 0.85. -/
def exMatchMid : MatchCandidate :=
  ⟨"e2", "Budget meeting", "2025-05-21T10:00:00", 85/100, none⟩

/-- A match candidate with confidence 0.5. -/
def exMatchLow : MatchCandidate :=
  ⟨"e2", "Budget meeting", "2025-05-21T10:00:00", 1/2, none⟩

/-- A fuzzy-ranking oracle answering with a 0.95 and a 0.85 candidate. -/
def exFuzzyTwo : String → List ScoredEvent → FuzzyDeletePreview :=
  fun s _ => ⟨s, [exMatchHigh, exMatchMid]⟩

/-- A fuzzy-ranking oracle answering with a single 0.5 candidate. -/
def exFuzzyLow : String → List ScoredEvent → FuzzyDeletePreview :=
  fun s _ => ⟨s, [exMatchLow]⟩

/-- A fuzzy-ranking oracle answering with no candidates. -/
def exFuzzyEmpty : String → List ScoredEvent → FuzzyDeletePreview :=
  fun s _ => ⟨s, []⟩

/-- A resolved delete action identified only by its summary. -/
def exDelBySummary : CalendarAction :=
  ⟨ActionKind.delete, "primary", some "Team sync", none, none, none, none, none⟩

/-- A resolved delete action carrying an event id (and also a summary). -/
def exDelById : CalendarAction :=
  ⟨ActionKind.delete, "primary", some "Team sync", none, none, some "abc123", none, none⟩

/-- A resolved delete action with neither event id nor summary. -/
def exDelBare : CalendarAction :=
  ⟨ActionKind.delete, "primary", none, none, none, none, none, none⟩

/-- A resolved create action missing its `endDateTime`. -/
def exCreateMissingEnd : CalendarAction :=
  ⟨ActionKind.create, "primary", some "Team sync", some "2025-05-20T15:00:00", none, none, none,
    none⟩

/-- A generation response requesting the live-events tool. -/
def exToolRequest : CalendarAction :=
  ⟨ActionKind.delete, "primary", none, none, none, none, some "listUpcomingEvents", none⟩

/-- A pre-validation object with no `calendarId`. -/
def exInputNoCal : SchemaInput :=
  ⟨some "delete", none, some "Team sync", none, none, none, none, none⟩

/-- A pre-validation object with an explicit `calendarId`. -/
def exInputWithCal : SchemaInput :=
  ⟨some "delete", some "work", some "Team sync", none, none, none, none, none⟩

/-- The normalized form of `exInputNoCal`. -/
def exOkNoCal : CalendarAction :=
  ⟨ActionKind.delete, "primary", some "Team sync", none, none, none, none, none⟩

/-- The normalized form of `exInputWithCal`. -/
def exOkWithCal : CalendarAction :=
  ⟨ActionKind.delete, "work", some "Team sync", none, none, none, none, none⟩

/-- A pre-validation object with a malformed `startDateTime` (missing
seconds). -/
def exInputBadTs : SchemaInput :=
  ⟨some "create", none, some "E", some "2025-05-20T15:00", none, none, none, none⟩

/-! Helper lemmas shared between the claim theorems. -/

/-- The hand-compiled regex matcher recognizes exactly the strings of the
spec's `^\d{4}-\d{2}-\d{2}T\d{2}:\d{2}:\d{2}$` shape. -/
theorem isoDateTimeRegexTest_iff (s : String) :
    isoDateTimeRegexTest s = true ↔ SpecIsoShape s := by
  constructor
  · intro h
    unfold isoDateTimeRegexTest at h
    split at h
    · rename_i y1 y2 y3 y4 d1 mo1 mo2 d2 da1 da2 t h1 h2 c1 mi1 mi2 c2 se1 se2 heq
      simp only [Bool.and_eq_true, decide_eq_true_eq] at h
      obtain ⟨⟨⟨⟨⟨⟨⟨⟨⟨⟨⟨⟨⟨⟨⟨⟨⟨⟨hy1, hy2⟩, hy3⟩, hy4⟩, hd1⟩, hmo1⟩, hmo2⟩, hd2⟩, hda1⟩,
        hda2⟩, ht⟩, hh1⟩, hh2⟩, hc1⟩, hmi1⟩, hmi2⟩, hc2⟩, hse1⟩, hse2⟩ := h
      subst hd1; subst hd2; subst ht; subst hc1; subst hc2
      exact ⟨y1, y2, y3, y4, mo1, mo2, da1, da2, h1, h2, mi1, mi2, se1, se2, heq,
        hy1, hy2, hy3, hy4, hmo1, hmo2, hda1, hda2, hh1, hh2, hmi1, hmi2, hse1, hse2⟩
    · exact absurd h (by simp)
  · rintro ⟨y1, y2, y3, y4, mo1, mo2, da1, da2, h1, h2, mi1, mi2, se1, se2, heq,
      hy1, hy2, hy3, hy4, hmo1, hmo2, hda1, hda2, hh1, hh2, hmi1, hmi2, hse1, hse2⟩
    unfold isoDateTimeRegexTest
    rw [heq]
    simp [hy1, hy2, hy3, hy4, hmo1, hmo2, hda1, hda2, hh1, hh2, hmi1, hmi2, hse1, hse2]

/-- Every collaborator call recorded by the tool loop is a read-only
upcoming-events fetch. -/
theorem runToolLoop_calls_read_only (collab : Collaborator) :
    ∀ (responses : List CalendarAction) (r : CalendarAction) (n : Nat)
      (calls : List CollabCall),
      runToolLoop collab responses = LoopOutcome.resolved r n calls →
      ∀ c ∈ calls, c.isMutation = false := by
  intro responses
  induction responses with
  | nil => intro r n calls h; simp [runToolLoop] at h
  | cons o rest ih =>
    intro r n calls h
    rw [runToolLoop] at h
    by_cases htc : o.toolCall = some "listUpcomingEvents"
    · rw [if_pos htc] at h
      cases hrec : runToolLoop collab rest with
      | stillLooping => rw [hrec] at h; exact absurd h (by simp)
      | resolved r' n' calls' =>
        rw [hrec] at h
        injection h with e1 e2 e3
        subst e3
        intro c hc
        rcases List.mem_cons.mp hc with hhd | htl
        · subst hhd; rfl
        · exact ih r' n' calls' hrec c htl
    · rw [if_neg htc] at h
      injection h with e1 e2 e3
      subst e3
      intro c hc
      exact absurd hc (List.not_mem_nil c)

/-- Normal form of the delete dispatch when the event id is falsy and the
summary is truthy: the disambiguation path, whose only collaborator call is
the upcoming-events fetch. -/
theorem dispatchAction_delete_fuzzy (o : CalendarAction) (collab : Collaborator)
    (fuzzyLlm : String → List ScoredEvent → FuzzyDeletePreview) (fmt : String → String)
    (s : String) (ha : o.action = ActionKind.delete) (he : o.eventId = none)
    (hs : o.summary = some s) (hne : s ≠ "") :
    dispatchAction o collab fuzzyLlm fmt =
      match (getFuzzyDeleteMatches fuzzyLlm s (collab.listUpcoming o.calendarId 50)).topMatches.head? with
      | none =>
        (AgentResult.message (noMatchMsg s), [CollabCall.listEvents o.calendarId 50])
      | some bestMatch =>
        if bestMatch.score < 8/10 then
          (AgentResult.message (noMatchMsg s), [CollabCall.listEvents o.calendarId 50])
        else
          (AgentResult.fuzzyPreview
            { summary := s,
              topMatches := (getFuzzyDeleteMatches fuzzyLlm s
                (collab.listUpcoming o.calendarId 50)).topMatches },
            [CollabCall.listEvents o.calendarId 50]) := by
  rcases o with ⟨a, cid, sm, sdt, edt, eid, tc, pc⟩
  simp only at ha he hs
  subst ha; subst he; subst hs
  simp [dispatchAction, isTruthy, hne]

/-- Normal form of the delete dispatch when the event id is truthy: the
direct delete, with no other collaborator call. -/
theorem dispatchAction_delete_direct (o : CalendarAction) (collab : Collaborator)
    (fuzzyLlm : String → List ScoredEvent → FuzzyDeletePreview) (fmt : String → String)
    (e : String) (ha : o.action = ActionKind.delete) (he : o.eventId = some e) (hne : e ≠ "") :
    dispatchAction o collab fuzzyLlm fmt =
      (AgentResult.message (deletedMsg e), [CollabCall.deleteEvent o.calendarId e]) := by
  rcases o with ⟨a, cid, sm, sdt, edt, eid, tc, pc⟩
  simp only at ha he
  subst ha; subst he
  simp [dispatchAction, isTruthy, hne]

/-! Claim theorems. -/

/-- Claim C1.  The claim states that a generation sequence requesting the
live-events tool 6 times in a row makes `handleLlmCalendarAction` terminate
with a `ToolLoopExceeded` failure after at most the maximum iteration count
(e.g. 5).  The code has no iteration cap and no `ToolLoopExceeded` outcome
at all: this theorem evaluates the embedded loop at the claim's input and
shows (a) a model that only ever requests the tool keeps the loop running
with no result for generation sequences of every length, and (b) six
consecutive tool requests followed by a final action are processed with
seven generation calls and six upcoming-events fetches, resolving normally
— past the claimed bound, with no failure of any kind. -/
theorem c1_tool_loop_has_no_iteration_cap :
    (∀ (collab : Collaborator) (n : Nat),
        runToolLoop collab (List.replicate n exToolRequest) = LoopOutcome.stillLooping) ∧
    (∀ collab : Collaborator,
        runToolLoop collab (List.replicate 6 exToolRequest ++ [exDelBySummary]) =
          LoopOutcome.resolved exDelBySummary 7
            (List.replicate 6 (CollabCall.listEvents "primary" 50))) := by
  constructor
  · intro collab n
    induction n with
    | zero => rfl
    | succ k ih =>
      rw [List.replicate_succ, runToolLoop,
        if_pos (show exToolRequest.toolCall = some "listUpcomingEvents" from rfl), ih]
  · intro collab
    rfl

/-- Claim C3: a resolved delete whose `eventId` is present (formalized as
truthy, i.e. a non-empty string — the semantics of the source's
`!resolvedEventId` test) delegates directly to the collaborator's delete
operation and performs no other collaborator call whatsoever: in particular
no upcoming-events fetch and no fuzzy matching (the result does not depend
on the fuzzy-ranking oracle, which is universally quantified here), and this
holds with no constraint on `summary`. -/
theorem c3_delete_with_eventId_bypasses_disambiguation (o : CalendarAction)
    (collab : Collaborator) (fuzzyLlm : String → List ScoredEvent → FuzzyDeletePreview)
    (fmt : String → String) (e : String) (ha : o.action = ActionKind.delete)
    (he : o.eventId = some e) (hne : e ≠ "") :
    dispatchAction o collab fuzzyLlm fmt =
      (AgentResult.message (deletedMsg e), [CollabCall.deleteEvent o.calendarId e]) ∧
    (∀ c ∈ (dispatchAction o collab fuzzyLlm fmt).2, c.isDelete = true) ∧
    ∀ (cid : String) (m : Nat), CollabCall.listEvents cid m ∉ (dispatchAction o collab fuzzyLlm fmt).2 := by
  have h := dispatchAction_delete_direct o collab fuzzyLlm fmt e ha he hne
  refine ⟨h, ?_, ?_⟩
  · rw [h]
    intro c hc
    rcases List.mem_cons.mp hc with hhd | htl
    · subst hhd; rfl
    · exact absurd htl (List.not_mem_nil c)
  · rw [h]
    intro cid m hmem
    rcases List.mem_cons.mp hmem with hhd | htl
    · exact absurd hhd (by simp)
    · exact absurd htl (List.not_mem_nil _)

/-- Witness for C3 at a concrete input: a delete action carrying both
`eventId = "abc123"` and a summary goes straight to the delete operation. -/
theorem c3_witness :
    dispatchAction exDelById exCollab exFuzzyTwo exFmt =
      (AgentResult.message (deletedMsg "abc123"), [CollabCall.deleteEvent "primary" "abc123"]) :=
  (c3_delete_with_eventId_bypasses_disambiguation exDelById exCollab exFuzzyTwo exFmt
    "abc123" rfl rfl (by decide)).1

/-- Claim C6: a resolved create action missing `summary`, `startDateTime` or
`endDateTime` produces the could-not-understand message and performs no
collaborator call at all — in particular no partial create call. -/
theorem c6_incomplete_create_never_calls_create (o : CalendarAction) (collab : Collaborator)
    (fuzzyLlm : String → List ScoredEvent → FuzzyDeletePreview) (fmt : String → String)
    (ha : o.action = ActionKind.create)
    (hmiss : o.summary = none ∨ o.startDateTime = none ∨ o.endDateTime = none) :
    dispatchAction o collab fuzzyLlm fmt =
      (AgentResult.message "⚠️ Could not understand your request.", []) := by
  rcases o with ⟨a, cid, sm, sdt, edt, eid, tc, pc⟩
  simp only at ha hmiss
  subst ha
  rcases hmiss with h | h | h <;> subst h <;> simp [dispatchAction, isTruthy]

/-- Witness for C6 at a concrete input: a create action with `summary` and
`startDateTime` but no `endDateTime`. -/
theorem c6_witness :
    dispatchAction exCreateMissingEnd exCollab exFuzzyTwo exFmt =
      (AgentResult.message "⚠️ Could not understand your request.", []) :=
  c6_incomplete_create_never_calls_create exCreateMissingEnd exCollab exFuzzyTwo exFmt rfl
    (Or.inr (Or.inr rfl))

/-- Claim C9: the Similarity Prefilter is deterministic — two calls with
identical inputs (same free text, same ordered candidate event set) yield
identical output, in particular the same candidate ordering and the same
scores.  The embedding of `sortByTfIdfSimilarity` is a pure function of its
two arguments because the source allocates a fresh `TfIdf` corpus on every
call, makes no external calls and touches no state outside the call,
so its output cannot depend on anything but the inputs. -/
theorem c9_prefilter_deterministic (input1 input2 : String) (events1 events2 : List Event)
    (hinput : input1 = input2) (hevents : events1 = events2) :
    sortByTfIdfSimilarity input1 events1 = sortByTfIdfSimilarity input2 events2 ∧
    (sortByTfIdfSimilarity input1 events1).map (fun e => e.event.id) =
      (sortByTfIdfSimilarity input2 events2).map (fun e => e.event.id) ∧
    (sortByTfIdfSimilarity input1 events1).map (fun e => e.similarity) =
      (sortByTfIdfSimilarity input2 events2).map (fun e => e.similarity) := by
  subst hinput
  subst hevents
  exact ⟨rfl, rfl, rfl⟩

/-- Witness for C9 at a concrete input: two invocations of the prefilter on
the same text and the same two-event set agree. -/
theorem c9_witness :
    sortByTfIdfSimilarity "budget meeting" [exEventTeamSync, exEventBudget] =
      sortByTfIdfSimilarity "budget meeting" [exEventTeamSync, exEventBudget] ∧
    (sortByTfIdfSimilarity "budget meeting" [exEventTeamSync, exEventBudget]).map
        (fun e => e.event.id) =
      (sortByTfIdfSimilarity "budget meeting" [exEventTeamSync, exEventBudget]).map
        (fun e => e.event.id) ∧
    (sortByTfIdfSimilarity "budget meeting" [exEventTeamSync, exEventBudget]).map
        (fun e => e.similarity) =
      (sortByTfIdfSimilarity "budget meeting" [exEventTeamSync, exEventBudget]).map
        (fun e => e.similarity) :=
  c9_prefilter_deterministic "budget meeting" "budget meeting"
    [exEventTeamSync, exEventBudget] [exEventTeamSync, exEventBudget] rfl rfl

/-- Claim C10: a resolved delete action with neither `eventId` nor `summary`
makes `handleLlmCalendarAction` return the message
`⚠️ No event ID found to delete.` with an empty collaborator-call trace:
no delete, and no upcoming-events fetch for disambiguation. -/
theorem c10_bare_delete_reports_missing_id (o : CalendarAction) (collab : Collaborator)
    (fuzzyLlm : String → List ScoredEvent → FuzzyDeletePreview) (fmt : String → String)
    (htc : o.toolCall ≠ some "listUpcomingEvents") (ha : o.action = ActionKind.delete)
    (he : o.eventId = none) (hs : o.summary = none) :
    handleLlmCalendarAction [o] collab fuzzyLlm fmt =
      some (AgentResult.message "⚠️ No event ID found to delete.", []) := by
  rcases o with ⟨a, cid, sm, sdt, edt, eid, tc, pc⟩
  simp only at htc ha he hs
  subst ha; subst he; subst hs
  simp [handleLlmCalendarAction, runToolLoop, htc, dispatchAction, isTruthy]

/-- Witness for C10 at a concrete input: the bare delete action. -/
theorem c10_witness :
    handleLlmCalendarAction [exDelBare] exCollab exFuzzyTwo exFmt =
      some (AgentResult.message "⚠️ No event ID found to delete.", []) :=
  c10_bare_delete_reports_missing_id exDelBare exCollab exFuzzyTwo exFmt (by decide) rfl rfl
    rfl

/-- Claim C2: an invocation whose resolved action is a delete without an
`eventId` (absent) but with a `summary` present (truthy) performs no
mutating collaborator call at all — no delete, no create, no update — and
hands back either the disambiguation payload (the fuzzy-delete preview) or
the no-match message; the actual deletion is deferred to the caller's
separate confirmation step. -/
theorem c2_ambiguous_delete_never_mutates (responses : List CalendarAction)
    (collab : Collaborator) (fuzzyLlm : String → List ScoredEvent → FuzzyDeletePreview)
    (fmt : String → String) (o : CalendarAction) (n : Nat) (loopCalls : List CollabCall)
    (s : String) (hrun : runToolLoop collab responses = LoopOutcome.resolved o n loopCalls)
    (ha : o.action = ActionKind.delete) (he : o.eventId = none) (hs : o.summary = some s)
    (hne : s ≠ "") :
    ∃ result trace,
      handleLlmCalendarAction responses collab fuzzyLlm fmt = some (result, trace) ∧
      (∀ c ∈ trace, c.isMutation = false) ∧
      ((∃ p, result = AgentResult.fuzzyPreview p) ∨
        result = AgentResult.message (noMatchMsg s)) := by
  have hd := dispatchAction_delete_fuzzy o collab fuzzyLlm fmt s ha he hs hne
  have htrace : (dispatchAction o collab fuzzyLlm fmt).2 = [CollabCall.listEvents o.calendarId 50] ∧
      ((∃ p, (dispatchAction o collab fuzzyLlm fmt).1 = AgentResult.fuzzyPreview p) ∨
        (dispatchAction o collab fuzzyLlm fmt).1 = AgentResult.message (noMatchMsg s)) := by
    cases hM : (getFuzzyDeleteMatches fuzzyLlm s (collab.listUpcoming o.calendarId 50)).topMatches.head? with
    | none =>
      simp only [hM] at hd
      rw [hd]
      exact ⟨rfl, Or.inr rfl⟩
    | some best =>
      simp only [hM] at hd
      by_cases hsc : best.score < 8/10
      · rw [if_pos hsc] at hd
        rw [hd]
        exact ⟨rfl, Or.inr rfl⟩
      · rw [if_neg hsc] at hd
        rw [hd]
        exact ⟨rfl, Or.inl ⟨_, rfl⟩⟩
  refine ⟨(dispatchAction o collab fuzzyLlm fmt).1,
    loopCalls ++ (dispatchAction o collab fuzzyLlm fmt).2, ?_, ?_, htrace.2⟩
  · rcases hdp : dispatchAction o collab fuzzyLlm fmt with ⟨r, dc⟩
    simp [handleLlmCalendarAction, hrun, hdp]
  · intro c hc
    rcases List.mem_append.mp hc with h | h
    · exact runToolLoop_calls_read_only collab responses o n loopCalls hrun c h
    · rw [htrace.1] at h
      rcases List.mem_cons.mp h with hhd | htl
      · subst hhd; rfl
      · exact absurd htl (List.not_mem_nil c)

/-- Witness for C2 at a concrete input: a single-response generation
sequence resolving to a summary-only delete, against a fuzzy oracle
answering with a 0.95 candidate. -/
theorem c2_witness :
    ∃ result trace,
      handleLlmCalendarAction [exDelBySummary] exCollab exFuzzyTwo exFmt =
        some (result, trace) ∧
      (∀ c ∈ trace, c.isMutation = false) ∧
      ((∃ p, result = AgentResult.fuzzyPreview p) ∨
        result = AgentResult.message (noMatchMsg "Team sync")) :=
  c2_ambiguous_delete_never_mutates [exDelBySummary] exCollab exFuzzyTwo exFmt
    exDelBySummary 1 [] "Team sync" rfl rfl rfl rfl (by decide)

/-- Claim C4: when the fuzzy ranking returns no candidates, or a best
candidate scoring below 0.8, the delete disambiguation produces the
could-not-confidently-find message and performs no delete call. -/
theorem c4_low_confidence_is_no_match (o : CalendarAction) (collab : Collaborator)
    (fuzzyLlm : String → List ScoredEvent → FuzzyDeletePreview) (fmt : String → String)
    (s : String) (ha : o.action = ActionKind.delete) (he : o.eventId = none)
    (hs : o.summary = some s) (hne : s ≠ "")
    (hlow : (getFuzzyDeleteMatches fuzzyLlm s (collab.listUpcoming o.calendarId 50)).topMatches = [] ∨
      ∃ best rest,
        (getFuzzyDeleteMatches fuzzyLlm s (collab.listUpcoming o.calendarId 50)).topMatches =
          best :: rest ∧ best.score < 8/10) :
    (dispatchAction o collab fuzzyLlm fmt).1 = AgentResult.message (noMatchMsg s) ∧
    ∀ c ∈ (dispatchAction o collab fuzzyLlm fmt).2, c.isDelete = false := by
  have hd := dispatchAction_delete_fuzzy o collab fuzzyLlm fmt s ha he hs hne
  have hres : dispatchAction o collab fuzzyLlm fmt =
      (AgentResult.message (noMatchMsg s), [CollabCall.listEvents o.calendarId 50]) := by
    rcases hlow with hnil | ⟨best, rest, hcons, hsc⟩
    · have hM : (getFuzzyDeleteMatches fuzzyLlm s (collab.listUpcoming o.calendarId 50)).topMatches.head? = none := by
        rw [hnil]; rfl
      simp only [hM] at hd
      exact hd
    · have hM : (getFuzzyDeleteMatches fuzzyLlm s (collab.listUpcoming o.calendarId 50)).topMatches.head? = some best := by
        rw [hcons]; rfl
      simp only [hM] at hd
      rw [if_pos hsc] at hd
      exact hd
  rw [hres]
  refine ⟨rfl, ?_⟩
  intro c hc
  rcases List.mem_cons.mp hc with hhd | htl
  · subst hhd; rfl
  · exact absurd htl (List.not_mem_nil c)

/-- Witness for C4 at a concrete input: a summary-only delete against a
fuzzy oracle whose only candidate scores 0.5. -/
theorem c4_witness :
    (dispatchAction exDelBySummary exCollab exFuzzyLow exFmt).1 =
      AgentResult.message (noMatchMsg "Team sync") :=
  (c4_low_confidence_is_no_match exDelBySummary exCollab exFuzzyLow exFmt "Team sync"
    rfl rfl rfl (by decide)
    (Or.inr ⟨exMatchLow, [], rfl, by norm_num [exMatchLow]⟩)).1

/-- Claim C5 counterexample: the claim states that a best candidate scoring
at or above 0.9 makes the core produce an auto-resolved result carrying
exactly that single best candidate, as a tagged outcome distinct from the
candidate-list outcome.  At this concrete input the fuzzy ranking's best
candidate scores 0.95, yet the core returns its one and only
`fuzzy-delete-preview` outcome carrying the full two-element match list —
not a single-candidate payload and not a distinct tag. -/
theorem c5_counterexample :
    (dispatchAction exDelBySummary exCollab exFuzzyTwo exFmt).1 =
      AgentResult.fuzzyPreview ⟨"Team sync", [exMatchHigh, exMatchMid]⟩ ∧
    (9 : ℚ)/10 ≤ exMatchHigh.score ∧
    [exMatchHigh, exMatchMid] ≠ [exMatchHigh] := by
  refine ⟨?_, by norm_num [exMatchHigh], by simp⟩
  have hd := dispatchAction_delete_fuzzy exDelBySummary exCollab exFuzzyTwo exFmt "Team sync"
    rfl rfl rfl (by decide)
  have hM : (getFuzzyDeleteMatches exFuzzyTwo "Team sync"
      (exCollab.listUpcoming exDelBySummary.calendarId 50)).topMatches.head? =
      some exMatchHigh := rfl
  simp only [hM] at hd
  rw [if_neg (by norm_num [exMatchHigh])] at hd
  rw [hd]
  rfl

/-- Claim C5 as amended: with a best candidate scoring at or above 0.9, the
core returns its `fuzzy-delete-preview` result carrying the full ranked
match list (best first) and performing no delete; the caller's app-mention
handler then renders exactly that single best candidate as the
confirm-before-delete prompt, a rendering distinct from the candidate-list
rendering used below 0.9. -/
theorem c5_amended_high_confidence_single_confirm (o : CalendarAction) (collab : Collaborator)
    (fuzzyLlm : String → List ScoredEvent → FuzzyDeletePreview) (fmt : String → String)
    (s : String) (top : MatchCandidate) (rest : List MatchCandidate)
    (ha : o.action = ActionKind.delete) (he : o.eventId = none) (hs : o.summary = some s)
    (hne : s ≠ "")
    (hm : (getFuzzyDeleteMatches fuzzyLlm s (collab.listUpcoming o.calendarId 50)).topMatches =
      top :: rest)
    (hscore : (9 : ℚ)/10 ≤ top.score) :
    (dispatchAction o collab fuzzyLlm fmt).1 = AgentResult.fuzzyPreview ⟨s, top :: rest⟩ ∧
    renderReply (dispatchAction o collab fuzzyLlm fmt).1 = SlackRendering.confirmSingle top ∧
    ∀ c ∈ (dispatchAction o collab fuzzyLlm fmt).2, c.isDelete = false := by
  have hd := dispatchAction_delete_fuzzy o collab fuzzyLlm fmt s ha he hs hne
  have hM : (getFuzzyDeleteMatches fuzzyLlm s (collab.listUpcoming o.calendarId 50)).topMatches.head? =
      some top := by rw [hm]; rfl
  simp only [hM] at hd
  have hnotlt : ¬ top.score < 8/10 := by
    intro hlt
    have : (8 : ℚ)/10 < 9/10 := by norm_num
    linarith
  rw [if_neg hnotlt, hm] at hd
  refine ⟨by rw [hd], ?_, ?_⟩
  · rw [hd]
    show renderReply (AgentResult.fuzzyPreview ⟨s, top :: rest⟩) = SlackRendering.confirmSingle top
    simp only [renderReply, List.head?]
    rw [if_pos hscore]
  · rw [hd]
    intro c hc
    rcases List.mem_cons.mp hc with hhd | htl
    · subst hhd; rfl
    · exact absurd htl (List.not_mem_nil c)

/-- Witness for the amended C5 at a concrete input: best candidate scoring
0.95, second candidate 0.85. -/
theorem c5_witness :
    (dispatchAction exDelBySummary exCollab exFuzzyTwo exFmt).1 =
      AgentResult.fuzzyPreview ⟨"Team sync", exMatchHigh :: [exMatchMid]⟩ ∧
    renderReply (dispatchAction exDelBySummary exCollab exFuzzyTwo exFmt).1 =
      SlackRendering.confirmSingle exMatchHigh :=
  ⟨(c5_amended_high_confidence_single_confirm exDelBySummary exCollab exFuzzyTwo exFmt
      "Team sync" exMatchHigh [exMatchMid] rfl rfl rfl (by decide) rfl
      (by norm_num [exMatchHigh])).1,
    (c5_amended_high_confidence_single_confirm exDelBySummary exCollab exFuzzyTwo exFmt
      "Team sync" exMatchHigh [exMatchMid] rfl rfl rfl (by decide) rfl
      (by norm_num [exMatchHigh])).2.1⟩

/-- Claim C7: the Schema Validator accepts a `startDateTime` or
`endDateTime` string exactly when it matches
`^\d{4}-\d{2}-\d{2}T\d{2}:\d{2}:\d{2}$` and rejects it as a validation
failure otherwise: the embedded regex test coincides with the pattern's
shape on every string; `2025-05-20T15:00:00` is accepted and
`2025-05-20T15:00` rejected; a validated object can only carry matching
timestamps; a present non-matching timestamp always makes validation fail
with a non-empty issue list; and a matching timestamp is accepted. -/
theorem c7_timestamp_validation :
    (∀ s, isoDateTimeRegexTest s = true ↔ SpecIsoShape s) ∧
    isoDateTimeRegexTest "2025-05-20T15:00:00" = true ∧
    isoDateTimeRegexTest "2025-05-20T15:00" = false ∧
    (∀ o r, validateSchema o = Except.ok r →
      ∀ s, (o.startDateTime = some s ∨ o.endDateTime = some s) →
        isoDateTimeRegexTest s = true) ∧
    (∀ o s, (o.startDateTime = some s ∨ o.endDateTime = some s) →
      isoDateTimeRegexTest s = false →
      ∃ es, validateSchema o = Except.error es ∧ es ≠ []) ∧
    (∀ s, isoDateTimeRegexTest s = true →
      ∃ r, validateSchema ⟨some "create", none, some "E", some s, some s, none, none, none⟩ =
        Except.ok r) := by
  refine ⟨isoDateTimeRegexTest_iff, by decide, by decide, ?_, ?_, ?_⟩
  · intro o r h s hor
    simp only [validateSchema] at h
    cases hpk : parseActionKind o.action with
    | none =>
      simp only [hpk] at h
      exact absurd h (by simp)
    | some a =>
      simp only [hpk] at h
      by_cases hiss : actionIssues o ++ timestampIssues o.startDateTime startDateTimeMsg ++
          timestampIssues o.endDateTime endDateTimeMsg = []
      · have h1 := List.append_eq_nil.mp hiss
        have h2 := List.append_eq_nil.mp h1.1
        by_cases htest : isoDateTimeRegexTest s = true
        · exact htest
        · exfalso
          rcases hor with hst | hen
          · have : timestampIssues o.startDateTime startDateTimeMsg = [startDateTimeMsg] := by
              rw [hst]; simp [timestampIssues, htest]
            rw [this] at h2
            exact absurd h2.2 (by simp)
          · have : timestampIssues o.endDateTime endDateTimeMsg = [endDateTimeMsg] := by
              rw [hen]; simp [timestampIssues, htest]
            rw [this] at h1
            exact absurd h1.2 (by simp)
      · rw [if_neg hiss] at h
        exact absurd h (by simp)
  · intro o s hor htest
    have hmem : (startDateTimeMsg ∈ actionIssues o ++
        timestampIssues o.startDateTime startDateTimeMsg ++
        timestampIssues o.endDateTime endDateTimeMsg) ∨
        (endDateTimeMsg ∈ actionIssues o ++
          timestampIssues o.startDateTime startDateTimeMsg ++
          timestampIssues o.endDateTime endDateTimeMsg) := by
      rcases hor with hst | hen
      · refine Or.inl (List.mem_append_left _ (List.mem_append_right _ ?_))
        rw [hst]
        simp [timestampIssues, htest]
      · refine Or.inr (List.mem_append_right _ ?_)
        rw [hen]
        simp [timestampIssues, htest]
    have hne : actionIssues o ++ timestampIssues o.startDateTime startDateTimeMsg ++
        timestampIssues o.endDateTime endDateTimeMsg ≠ [] := by
      rcases hmem with hm | hm
      · exact List.ne_nil_of_mem hm
      · exact List.ne_nil_of_mem hm
    refine ⟨actionIssues o ++ timestampIssues o.startDateTime startDateTimeMsg ++
      timestampIssues o.endDateTime endDateTimeMsg, ?_, hne⟩
    simp only [validateSchema]
    cases hpk : parseActionKind o.action with
    | none => rfl
    | some a => exact if_neg hne
  · intro s h
    exact ⟨{ action := ActionKind.create, calendarId := "primary", summary := some "E",
             startDateTime := some s, endDateTime := some s, eventId := none,
             toolCall := none, parametersCalendarId := none },
      by simp [validateSchema, actionIssues, timestampIssues, parseActionKind, h]⟩

/-- Witness for C7 at concrete inputs: the example timestamps of the spec,
one accepted by a full validation and one rejected with a non-empty issue
list. -/
theorem c7_witness :
    isoDateTimeRegexTest "2025-05-20T15:00:00" = true ∧
    isoDateTimeRegexTest "2025-05-20T15:00" = false ∧
    (∃ r, validateSchema ⟨some "create", none, some "E", some "2025-05-20T15:00:00",
      some "2025-05-20T15:00:00", none, none, none⟩ = Except.ok r) ∧
    (∃ es, validateSchema exInputBadTs = Except.error es ∧ es ≠ []) :=
  ⟨c7_timestamp_validation.2.1, c7_timestamp_validation.2.2.1,
    c7_timestamp_validation.2.2.2.2.2 "2025-05-20T15:00:00" (by decide),
    c7_timestamp_validation.2.2.2.2.1 exInputBadTs "2025-05-20T15:00" (Or.inl rfl) (by decide)⟩

/-- Claim C8: a successful validation returns a normalized
`CalendarActionRequest` whose `calendarId` is the sentinel `"primary"` when
the input had none, and is the input's `calendarId` unchanged when one was
present. -/
theorem c8_calendarId_defaulting (o : SchemaInput) (r : CalendarAction)
    (h : validateSchema o = Except.ok r) :
    (o.calendarId = none → r.calendarId = "primary") ∧
    ∀ c, o.calendarId = some c → r.calendarId = c := by
  have hcal : r.calendarId = o.calendarId.getD "primary" := by
    simp only [validateSchema] at h
    cases hpk : parseActionKind o.action with
    | none =>
      simp only [hpk] at h
      exact absurd h (by simp)
    | some a =>
      simp only [hpk] at h
      by_cases hiss : actionIssues o ++ timestampIssues o.startDateTime startDateTimeMsg ++
          timestampIssues o.endDateTime endDateTimeMsg = []
      · rw [if_pos hiss] at h
        injection h with h2
        rw [← h2]
      · rw [if_neg hiss] at h
        exact absurd h (by simp)
  constructor
  · intro hnone
    rw [hcal, hnone]
    rfl
  · intro c hc
    rw [hcal, hc]
    rfl

/-- Witness for C8 at concrete inputs: a missing `calendarId` is defaulted
to `"primary"`; an explicit `"work"` is preserved. -/
theorem c8_witness :
    (validateSchema exInputNoCal = Except.ok exOkNoCal ∧ exOkNoCal.calendarId = "primary") ∧
    (validateSchema exInputWithCal = Except.ok exOkWithCal ∧ exOkWithCal.calendarId = "work") :=
  ⟨⟨rfl, (c8_calendarId_defaulting exInputNoCal exOkNoCal rfl).1 rfl⟩,
    ⟨rfl, (c8_calendarId_defaulting exInputWithCal exOkWithCal rfl).2 "work" rfl⟩⟩

end SlackEAi
